import Mathlib

/-!
The program `keyboard_emu.cpp`: a GPIO switch as a virtual keyboard.

A shallow embedding of `src/keyboard_emu.cpp`.  The program is a straight line
of system calls and register stores followed by an endless poll loop.  It is
embedded as a function from the answers of the operating system and of the
hardware (`Env`) to the ordered list of calls and stores the program performs
(`Action`) together with its exit code, if it exits.

* Machine integers are `Int`; every value that occurs stays far inside the
  range of a C `int`, so no wrap-around is involved.
* Pointers are their `intptr_t` value: `NULL` is `0`, `MAP_FAILED`, that is
  `(void*)-1`, is `-1`.
* The words read from `pinSwt->IN` are natural numbers (an unsigned register).
* The poll loop never ends; it is run over the finite list of register words
  read so far and yields the actions performed during those iterations.
* The header `gpionano.h` is not part of the sources; the three constants the
  program takes from it are the fields of `Gpionano`, and the fields of
  `gpio_t` are named, not laid out.
-/

namespace KeyboardEmu

/-! ## Constants of `linux/input-event-codes.h` and `linux/input.h` -/

def EV_SYN : Int := 0
def EV_KEY : Int := 1
def SYN_REPORT : Int := 0
def KEY_A : Int := 30
def KEY_SPACE : Int := 57
def BUS_USB : Int := 3

/-- The value `(void*)0`. -/
def NULL : Int := 0

/-- The value `(void*)-1`, which `mmap` returns on failure. -/
def MAP_FAILED : Int := -1

/-! ## Data -/

/-- The `struct input_event` that `emit` fills in and writes. -/
structure input_event where
  tv_sec : Int
  tv_usec : Int
  type : Int
  code : Int
  value : Int
deriving DecidableEq, Repr

/-- The `struct uinput_setup` passed to `UI_DEV_SETUP`. -/
structure uinput_setup where
  bustype : Int
  vendor : Int
  product : Int
  version : Int
  name : String
  ff_effects_max : Int
deriving DecidableEq, Repr

/-- The constants `keyboard_emu.cpp` takes from the header `gpionano.h`. -/
structure Gpionano where
  GPIO_77 : Int
  INPUT : Int
  GPIO_INT_LVL_EDGE_BOTH : Int
deriving DecidableEq, Repr

/-- The fields of `gpio_t` the program stores to. -/
inductive Reg where
  | CNF | OE | IN | INT_ENB | INT_STA | INT_LVL | INT_CLR
deriving DecidableEq, Repr

/-- The flags given to `open` and `mmap`. -/
inductive Flag where
  | O_RDWR | O_SYNC | O_WRONLY | O_NONBLOCK
  | PROT_READ | PROT_WRITE | MAP_SHARED
deriving DecidableEq, Repr

/-- The `ioctl` requests of `linux/uinput.h` the program issues. -/
inductive Request where
  | UI_SET_EVBIT | UI_SET_KEYBIT | UI_DEV_SETUP | UI_DEV_CREATE
deriving DecidableEq, Repr

/-- The third argument of an `ioctl` call. -/
inductive Arg where
  | none
  | int (n : Int)
  | setup (u : uinput_setup)
deriving DecidableEq, Repr

/-- One externally visible action of the program, in program order. -/
inductive Action where
  | sysOpen (path : String) (flags : List Flag)
  | fprintfStderr (text : String)
  | perror (text : String)
  | sysExit (status : Int)
  | ioctl (fd : Int) (request : Request) (arg : Arg)
  | getpagesize
  | mmap (addr : Int) (length : Int) (prot : List Flag) (flags : List Flag) (fd : Int)
      (offset : Int)
  | store (ptr : Int) (reg : Reg) (val : Int)
  | write (fd : Int) (ie : input_event)
deriving DecidableEq, Repr

/-- What the operating system and the hardware answer during one run. -/
structure Env where
  /-- The string `argv[0]`. -/
  argv0 : String
  /-- The result of `open("/dev/mem", ...)`. -/
  fd : Int
  /-- The result of `open("/dev/uinput", ...)`. -/
  fk : Int
  /-- The result of `getpagesize()`. -/
  pagesize : Int
  /-- The result of `mmap(...)`. -/
  base : Int
  /-- The words read from `pinSwt->IN`, one per loop iteration. -/
  reads : List Nat
deriving Repr

/-- The actions of a run and the exit status (`none`: still in the poll loop). -/
structure Outcome where
  trace : List Action
  exitCode : Option Int
deriving DecidableEq, Repr

/-! ## The program -/

/-- The function `void emit(int fk, int type, int code, int val)`: one `write` of one record. -/
def emit (fk type code val : Int) : List Action :=
  [Action.write fk
    { type := type, code := code, value := val, tv_sec := 0, tv_usec := 0 }]

/-- The value `pinSwt->IN>>5` that the loop compares with `0`. -/
def sampleOf (word : Nat) : Nat := word >>> 5

/-- The body of `while(true)`, given the value of `pinSwt->IN>>5`: the new
`switchPressed` and the actions performed. -/
def loopBody (fk : Int) (switchPressed : Bool) (sample : Nat) : Bool × List Action :=
  if sample = 0 then
    if !switchPressed then
      (true, emit fk EV_KEY KEY_A 1 ++ emit fk EV_SYN SYN_REPORT 0)
    else
      (switchPressed, [])
  else
    if switchPressed then
      (false, emit fk EV_KEY KEY_A 0 ++ emit fk EV_SYN SYN_REPORT 0)
    else
      (switchPressed, [])

/-- The iterations of `while(true)` over the given samples, in order. -/
def pollLoop (fk : Int) : Bool → List Nat → Bool × List Action
  | switchPressed, [] => (switchPressed, [])
  | switchPressed, sample :: rest =>
    let r := loopBody fk switchPressed sample
    let r2 := pollLoop fk r.1 rest
    (r2.1, r.2 ++ r2.2)

/-- The `offset` argument of `mmap`: `GPIO_77 & ~pagemask`. -/
def mapOffset (address pagesize : Int) : Int :=
  let pagemask := pagesize - 1
  Int.land address (Int.lnot pagemask)

/-- The offset added to `base`: `GPIO_77 & pagemask`. -/
def inPageOffset (address pagesize : Int) : Int :=
  let pagemask := pagesize - 1
  Int.land address pagemask

/-- The `UI_SET_KEYBIT` requests of the setup, in order. -/
def declareKeys (fk : Int) : List Action :=
  [ Action.ioctl fk Request.UI_SET_KEYBIT (Arg.int KEY_SPACE),
    Action.ioctl fk Request.UI_SET_KEYBIT (Arg.int KEY_A),
    Action.ioctl fk Request.UI_SET_KEYBIT (Arg.int 48) ]

/-- The `usetup` after `memset` and the four assignments. -/
def usetup : uinput_setup :=
  { bustype := BUS_USB, vendor := 0x1234, product := 0x5678, version := 0,
    name := "Jetson GPIO", ff_effects_max := 0 }

/-- The stores through `pinSwt` before the loop. -/
def configure (hw : Gpionano) (pinSwt : Int) : List Action :=
  [ Action.store pinSwt Reg.CNF 0x00FF,
    Action.store pinSwt Reg.OE hw.INPUT,
    Action.store pinSwt Reg.IN 0x00,
    Action.store pinSwt Reg.INT_ENB 0x00,
    Action.store pinSwt Reg.INT_STA 0xFF,
    Action.store pinSwt Reg.INT_LVL hw.GPIO_INT_LVL_EDGE_BOTH,
    Action.store pinSwt Reg.INT_CLR 0xffffff ]

/-- The function `int main(int argc, char** argv)`. -/
def main (hw : Gpionano) (env : Env) : Outcome :=
  let fd := env.fd
  let t0 := [Action.sysOpen "/dev/mem" [Flag.O_RDWR, Flag.O_SYNC]]
  if fd < 0 then
    { trace := t0 ++
        [ Action.fprintfStderr
            ("usage : $ sudo " ++ env.argv0 ++ " (with root privilege)\n"),
          Action.sysExit 1 ],
      exitCode := some 1 }
  else
    let fk := env.fk
    let t1 := t0 ++ [Action.sysOpen "/dev/uinput" [Flag.O_WRONLY, Flag.O_NONBLOCK]]
      ++ [Action.ioctl fk Request.UI_SET_EVBIT (Arg.int EV_KEY)]
      ++ declareKeys fk
      ++ [ Action.ioctl fk Request.UI_DEV_SETUP (Arg.setup usetup),
           Action.ioctl fk Request.UI_DEV_CREATE Arg.none ]
    let pagesize := env.pagesize
    let base := env.base
    let t2 := t1 ++
      [ Action.getpagesize,
        Action.mmap 0 pagesize [Flag.PROT_READ, Flag.PROT_WRITE] [Flag.MAP_SHARED] fd
          (mapOffset hw.GPIO_77 pagesize) ]
    if base = NULL then
      { trace := t2 ++ [Action.perror "mmap()", Action.sysExit 1],
        exitCode := some 1 }
    else
      let pinSwt := base + inPageOffset hw.GPIO_77 pagesize
      let t3 := t2 ++ configure hw pinSwt
      let switchPressed := false
      let r := pollLoop fk switchPressed (env.reads.map sampleOf)
      { trace := t3 ++ r.2, exitCode := none }

/-! ## Observations on a trace -/

/-- The records written with `write`, in order. -/
def records : List Action → List input_event
  | [] => []
  | Action.write _ ie :: rest => ie :: records rest
  | _ :: rest => records rest

/-- The key-state records among the written ones (synchronization dropped). -/
def keyEvents (t : List Action) : List input_event :=
  (records t).filter (fun ie => ie.type == EV_KEY)

/-- The record of a key press: `EV_KEY`, `KEY_A`, value 1. -/
def pressEvent : input_event :=
  { type := EV_KEY, code := KEY_A, value := 1, tv_sec := 0, tv_usec := 0 }

/-- The record of a key release: `EV_KEY`, `KEY_A`, value 0. -/
def releaseEvent : input_event :=
  { type := EV_KEY, code := KEY_A, value := 0, tv_sec := 0, tv_usec := 0 }

/-- The synchronization record: `EV_SYN`, `SYN_REPORT`, value 0. -/
def synEvent : input_event :=
  { type := EV_SYN, code := SYN_REPORT, value := 0, tv_sec := 0, tv_usec := 0 }

/-- The key codes declared with `UI_SET_KEYBIT` in a trace, in order. -/
def declaredKeys : List Action → List Int
  | [] => []
  | Action.ioctl _ Request.UI_SET_KEYBIT (Arg.int k) :: rest => k :: declaredKeys rest
  | _ :: rest => declaredKeys rest

/-- A sample is pressed when it compares equal to `0`. -/
def isPressed (sample : Nat) : Bool := sample == 0

/-- A written record is a press event: `EV_KEY`, `KEY_A`, value 1. -/
def isPress (ie : input_event) : Bool :=
  ie.type == EV_KEY && ie.code == KEY_A && ie.value == 1

/-- A written record is a release event: `EV_KEY`, `KEY_A`, value 0. -/
def isRelease (ie : input_event) : Bool :=
  ie.type == EV_KEY && ie.code == KEY_A && ie.value == 0

/-- Each sample paired with the state of the sample before it; the first
sample is paired with the given initial state. -/
def withPrevious (initial : Bool) (samples : List Nat) : List (Bool × Bool) :=
  (initial :: samples.map isPressed).zip (samples.map isPressed)

/-- The number of positions where the sample is pressed and the one before is not. -/
def pressTransitions (initial : Bool) (samples : List Nat) : Nat :=
  (withPrevious initial samples).countP (fun p => !p.1 && p.2)

/-- The number of positions where the sample is not pressed and the one before is. -/
def releaseTransitions (initial : Bool) (samples : List Nat) : Nat :=
  (withPrevious initial samples).countP (fun p => p.1 && !p.2)

/-- The key events of a strictly alternating stream of the given length;
`held` tells whether the key is down at its start. -/
def alternating : Bool → Nat → List input_event
  | _, 0 => []
  | held, n + 1 => (if held then releaseEvent else pressEvent) :: alternating (!held) n

/-- The stream written for a list of key states: for each one its key record
followed by one synchronization record. -/
def pairedStream (flags : List Bool) : List input_event :=
  flags.flatMap (fun b => [if b then pressEvent else releaseEvent, synEvent])

/-- An action is a store to a register of the controller. -/
def isStore : Action → Bool
  | Action.store _ _ _ => true
  | _ => false

/-- An action is a call of `perror`. -/
def isPerror : Action → Bool
  | Action.perror _ => true
  | _ => false

/-- The physical address behind a pointer, for a shared mapping of `/dev/mem`
of `length` bytes at `base` with file offset `offset`: byte `i` of the mapping
is byte `offset + i` of physical memory; pointers outside the mapping have none. -/
def physicalOf (base length offset ptr : Int) : Option Int :=
  if base ≤ ptr ∧ ptr < base + length then some (offset + (ptr - base)) else none

/-- One choice of the constants of `gpionano.h`, for concrete runs. -/
def exampleHeader : Gpionano :=
  { GPIO_77 := 0x6000d204, INPUT := 0, GPIO_INT_LVL_EDGE_BOTH := 3 }

/-- A run in which every call succeeds and the register reads `0xff`, `0xff`,
`0x00`, `0x1f`, `0x40`. -/
def exampleEnv : Env :=
  { argv0 := "./keyboard_emu", fd := 3, fk := 4, pagesize := 4096,
    base := 0x7f0000000000, reads := [0xff, 0xff, 0x00, 0x1f, 0x40] }

/-- A run in which `/dev/mem` cannot be opened. -/
def envOpenFails : Env :=
  { exampleEnv with fd := -1 }

/-- A run in which `mmap` fails and so returns `MAP_FAILED`; the register read
that follows is given the word `0`. -/
def envMapFails : Env :=
  { exampleEnv with base := MAP_FAILED, reads := [0] }

/-- An action is a `write` of a record. -/
def isWrite : Action → Bool
  | Action.write _ _ => true
  | _ => false

/-- The `write` calls of a trace, each with its descriptor and record, in order. -/
def writes (t : List Action) : List Action :=
  t.filter isWrite

/-- The writes of a stream of key/synchronization pairs on one descriptor: for
each key state a `write` of its key record to `fk`, directly followed by a
`write` of the synchronization record to the same `fk`. -/
def pairedWrites (fk : Int) (flags : List Bool) : List Action :=
  flags.flatMap (fun b =>
    [ Action.write fk (if b then pressEvent else releaseEvent),
      Action.write fk synEvent ])

/-- The state changes in a sequence of samples, read off the samples alone: the
new state at every position whose sample differs from the state before it. -/
def changes : Bool → List Nat → List Bool
  | _, [] => []
  | held, sample :: rest =>
    if isPressed sample = held then changes held rest
    else isPressed sample :: changes (isPressed sample) rest

/-! ## The poll loop, one iteration at a time -/

theorem records_append (s t : List Action) : records (s ++ t) = records s ++ records t := by
  induction s with
  | nil => rfl
  | cons a s ih => cases a <;> simp [records, ih]

theorem keyEvents_append (s t : List Action) :
    keyEvents (s ++ t) = keyEvents s ++ keyEvents t := by
  simp [keyEvents, records_append]

theorem pollLoop_cons (fk : Int) (held : Bool) (sample : Nat) (rest : List Nat) :
    pollLoop fk held (sample :: rest)
      = ((pollLoop fk (loopBody fk held sample).1 rest).1,
          (loopBody fk held sample).2 ++ (pollLoop fk (loopBody fk held sample).1 rest).2) :=
  rfl

theorem loopBody_state (fk : Int) (held : Bool) (sample : Nat) :
    (loopBody fk held sample).1 = isPressed sample := by
  cases held <;> by_cases h : sample = 0 <;> simp [loopBody, isPressed, h]

theorem loopBody_records (fk : Int) (held : Bool) (sample : Nat) :
    records (loopBody fk held sample).2
      = if isPressed sample = held then []
        else [if isPressed sample then pressEvent else releaseEvent, synEvent] := by
  cases held <;> by_cases h : sample = 0 <;>
    simp [loopBody, isPressed, h, emit, records, pressEvent, releaseEvent, synEvent]

theorem loopBody_same (fk : Int) (sample : Nat) :
    loopBody fk (isPressed sample) sample = (isPressed sample, []) := by
  by_cases h : sample = 0 <;> simp [loopBody, isPressed, h]

theorem pollLoop_append (fk : Int) (held : Bool) (s t : List Nat) :
    pollLoop fk held (s ++ t)
      = ((pollLoop fk (pollLoop fk held s).1 t).1,
          (pollLoop fk held s).2 ++ (pollLoop fk (pollLoop fk held s).1 t).2) := by
  induction s generalizing held with
  | nil => simp [pollLoop]
  | cons a s ih => simp [pollLoop_cons, ih, List.append_assoc]

theorem pollLoop_replicate_same (fk : Int) (sample : Nat) (n : Nat) :
    pollLoop fk (isPressed sample) (List.replicate n sample) = (isPressed sample, []) := by
  induction n with
  | zero => rfl
  | succ n ih => simp [List.replicate_succ, pollLoop_cons, loopBody_same, ih]

theorem withPrevious_cons (held : Bool) (a : Nat) (rest : List Nat) :
    withPrevious held (a :: rest) = (held, isPressed a) :: withPrevious (isPressed a) rest :=
  rfl

theorem press_count_from (fk : Int) (held : Bool) (samples : List Nat) :
    (records (pollLoop fk held samples).2).countP isPress = pressTransitions held samples := by
  induction samples generalizing held with
  | nil => rfl
  | cons a rest ih =>
    have h := ih (isPressed a)
    rw [pollLoop_cons, records_append, List.countP_append, loopBody_state, h, loopBody_records]
    unfold pressTransitions
    rw [withPrevious_cons, List.countP_cons]
    generalize isPressed a = b
    cases held <;> cases b <;>
      simp [List.countP_cons, isPress, pressEvent, releaseEvent, synEvent, EV_KEY, EV_SYN,
        KEY_A, SYN_REPORT, Nat.add_comm]

theorem release_count_from (fk : Int) (held : Bool) (samples : List Nat) :
    (records (pollLoop fk held samples).2).countP isRelease
      = releaseTransitions held samples := by
  induction samples generalizing held with
  | nil => rfl
  | cons a rest ih =>
    have h := ih (isPressed a)
    rw [pollLoop_cons, records_append, List.countP_append, loopBody_state, h, loopBody_records]
    unfold releaseTransitions
    rw [withPrevious_cons, List.countP_cons]
    generalize isPressed a = b
    cases held <;> cases b <;>
      simp [List.countP_cons, isRelease, pressEvent, releaseEvent, synEvent, EV_KEY, EV_SYN,
        KEY_A, SYN_REPORT, Nat.add_comm]

theorem keyEvents_loopBody (fk : Int) (held : Bool) (sample : Nat) :
    keyEvents (loopBody fk held sample).2
      = if isPressed sample = held then []
        else [if isPressed sample then pressEvent else releaseEvent] := by
  unfold keyEvents
  rw [loopBody_records]
  generalize isPressed sample = b
  cases held <;> cases b <;> decide

theorem keyEvents_alternating (fk : Int) (held : Bool) (samples : List Nat) :
    ∃ n, keyEvents (pollLoop fk held samples).2 = alternating held n := by
  induction samples generalizing held with
  | nil => exact ⟨0, rfl⟩
  | cons a rest ih =>
    obtain ⟨n, hn⟩ := ih (isPressed a)
    rw [pollLoop_cons, keyEvents_append, loopBody_state, hn, keyEvents_loopBody]
    generalize isPressed a = b
    cases held <;> cases b
    · exact ⟨n, rfl⟩
    · exact ⟨n + 1, rfl⟩
    · exact ⟨n + 1, rfl⟩
    · exact ⟨n, rfl⟩

theorem alternating_length (held : Bool) (n : Nat) : (alternating held n).length = n := by
  induction n generalizing held with
  | zero => rfl
  | succ n ih => simp [alternating, ih]

theorem alternating_eq_map (held : Bool) (n : Nat) :
    alternating held n
      = (List.range n).map
          (fun i => if (decide (i % 2 = 0) != held) then pressEvent else releaseEvent) := by
  induction n generalizing held with
  | zero => rfl
  | succ n ih =>
    rw [List.range_succ_eq_map, alternating, ih, List.map_cons, List.map_map]
    congr 1
    · cases held <;> rfl
    · apply List.map_congr_left
      intro i _
      by_cases hi : i % 2 = 0
      · have h0 : (i + 1) % 2 = 1 := by omega
        cases held <;> simp [hi, h0]
      · have h0 : (i + 1) % 2 = 0 := by omega
        cases held <;> simp [hi, h0]

theorem pairedStream_timestamps (flags : List Bool) :
    (pairedStream flags).all (fun ie => ie.tv_sec == 0 && ie.tv_usec == 0) = true := by
  induction flags with
  | nil => rfl
  | cons b flags ih =>
    have hb : pairedStream (b :: flags)
        = [if b then pressEvent else releaseEvent, synEvent] ++ pairedStream flags := by
      simp [pairedStream, List.flatMap_cons]
    rw [hb, List.all_append, ih]
    cases b <;> decide

theorem records_main (hw : Gpionano) (env : Env) :
    records (main hw env).trace
      = if env.fd < 0 ∨ env.base = NULL then []
        else records (pollLoop env.fk false (env.reads.map sampleOf)).2 := by
  unfold main
  by_cases h1 : env.fd < 0
  · simp [h1, records]
  · by_cases h2 : env.base = NULL
    · simp [h1, h2, records, records_append, declareKeys]
    · simp [h1, h2, records, records_append, declareKeys, configure]

theorem ldiff_low_mask (A k : Nat) : Nat.ldiff A (2 ^ k - 1) = A - A % 2 ^ k := by
  have h : A - A % 2 ^ k = 2 ^ k * (A >>> k) := by
    rw [Nat.shiftRight_eq_div_pow]
    have := Nat.mod_add_div A (2 ^ k)
    omega
  rw [h]
  apply Nat.eq_of_testBit_eq
  intro i
  rw [Nat.testBit_ldiff, Nat.testBit_two_pow_sub_one, Nat.testBit_mul_pow_two,
    Nat.testBit_shiftRight]
  by_cases hi : i < k
  · simp [hi]
  · have : k + (i - k) = i := by omega
    simp [hi, this]
    intro h; omega

theorem mask_cast (k : Nat) : (2 : Int) ^ k - 1 = ((2 ^ k - 1 : Nat) : Int) := by
  have := Nat.one_le_two_pow (n := k)
  push_cast [Nat.cast_sub this]
  rfl

theorem mapOffset_cast (A k : Nat) :
    mapOffset (A : Int) ((2 : Int) ^ k) = ((A - A % 2 ^ k : Nat) : Int) := by
  unfold mapOffset
  simp only
  rw [mask_cast, ← ldiff_low_mask]
  rfl

theorem inPageOffset_cast (A k : Nat) :
    inPageOffset (A : Int) ((2 : Int) ^ k) = ((A % 2 ^ k : Nat) : Int) := by
  unfold inPageOffset
  simp only
  rw [mask_cast, ← Nat.and_pow_two_sub_one_eq_mod]
  rfl

theorem sampleOf_eq_zero_iff (word : Nat) :
    sampleOf word = 0 ↔ ∀ i, 5 ≤ i → word.testBit i = false := by
  unfold sampleOf
  constructor
  · intro h i hi
    have h2 : (word >>> 5).testBit (i - 5) = false := by rw [h]; simp
    rw [Nat.testBit_shiftRight] at h2
    rwa [show 5 + (i - 5) = i by omega] at h2
  · intro h
    apply Nat.eq_of_testBit_eq
    intro i
    rw [Nat.testBit_shiftRight, h _ (by omega)]
    simp

theorem declaredKeys_append (s t : List Action) :
    declaredKeys (s ++ t) = declaredKeys s ++ declaredKeys t := by
  induction s with
  | nil => rfl
  | cons a s ih =>
    cases a with
    | ioctl fd request arg =>
      cases request <;> cases arg <;> simp [declaredKeys, ih]
    | _ => simp [declaredKeys, ih]

theorem declaredKeys_loopBody (fk : Int) (held : Bool) (sample : Nat) :
    declaredKeys (loopBody fk held sample).2 = [] := by
  cases held <;> by_cases h : sample = 0 <;> simp [loopBody, h, emit, declaredKeys]

theorem declaredKeys_pollLoop (fk : Int) (held : Bool) (samples : List Nat) :
    declaredKeys (pollLoop fk held samples).2 = [] := by
  induction samples generalizing held with
  | nil => rfl
  | cons a rest ih => simp [pollLoop_cons, declaredKeys_append, declaredKeys_loopBody, ih]

theorem pairedWrites_cons (fk : Int) (b : Bool) (flags : List Bool) :
    pairedWrites fk (b :: flags)
      = [ Action.write fk (if b then pressEvent else releaseEvent),
          Action.write fk synEvent ] ++ pairedWrites fk flags := by
  simp [pairedWrites, List.flatMap_cons]

theorem loopBody_actions (fk : Int) (held : Bool) (sample : Nat) :
    (loopBody fk held sample).2
      = if isPressed sample = held then [] else pairedWrites fk [isPressed sample] := by
  cases held <;> by_cases h : sample = 0 <;>
    simp [loopBody, isPressed, h, emit, pairedWrites, pressEvent, releaseEvent, synEvent]

theorem pollLoop_actions (fk : Int) (held : Bool) (samples : List Nat) :
    (pollLoop fk held samples).2 = pairedWrites fk (changes held samples) := by
  induction samples generalizing held with
  | nil => rfl
  | cons a rest ih =>
    rw [pollLoop_cons, loopBody_state, ih, loopBody_actions]
    by_cases h : isPressed a = held
    · simp [changes, h]
    · simp only [changes, h, if_false]
      rw [pairedWrites_cons fk (isPressed a) (changes (isPressed a) rest)]
      simp [pairedWrites]

theorem writes_pairedWrites (fk : Int) (flags : List Bool) :
    writes (pairedWrites fk flags) = pairedWrites fk flags := by
  induction flags with
  | nil => rfl
  | cons b flags ih =>
    rw [pairedWrites_cons]
    unfold writes at ih ⊢
    rw [List.filter_append, ih]
    simp [isWrite]

theorem records_pairedWrites (fk : Int) (flags : List Bool) :
    records (pairedWrites fk flags) = pairedStream flags := by
  induction flags with
  | nil => rfl
  | cons b flags ih =>
    rw [pairedWrites_cons, records_append, ih]
    simp [records, pairedStream, List.flatMap_cons]

theorem writes_main (hw : Gpionano) (env : Env) :
    writes (main hw env).trace
      = if env.fd < 0 ∨ env.base = NULL then []
        else pairedWrites env.fk (changes false (env.reads.map sampleOf)) := by
  unfold main
  by_cases h1 : env.fd < 0
  · simp [h1, writes, isWrite]
  · by_cases h2 : env.base = NULL
    · simp [h1, h2, writes, isWrite, declareKeys]
    · have hw2 := writes_pairedWrites env.fk (changes false (env.reads.map sampleOf))
      unfold writes at hw2
      simp [h1, h2, writes, isWrite, declareKeys, configure, pollLoop_actions, hw2]

/-! ## The claims -/

/-- C1: for every finite sequence of samples fed to the poll loop from the
initial state `switchPressed = false`, the number of press records written
equals the number of positions whose sample is pressed while the one before
(the initial state, for the first) is not, and the number of release records
equals the number of positions whose sample is not pressed while the one
before is; the samples `[1,1,1,0,0,1]` give the key events `[press, release]`. -/
theorem press_release_counts_match_transitions (fk : Int) (samples : List Nat) :
    (records (pollLoop fk false samples).2).countP isPress = pressTransitions false samples
    ∧ (records (pollLoop fk false samples).2).countP isRelease
        = releaseTransitions false samples
    ∧ keyEvents (pollLoop fk false [1, 1, 1, 0, 0, 1]).2 = [pressEvent, releaseEvent] :=
  ⟨press_count_from fk false samples, release_count_from fk false samples, rfl⟩

/-- C2: for every finite sequence of samples processed from the initial state,
the key events written (synchronization records dropped) are press, release,
press, ... in strict alternation, starting with a press: the event at every
even position is a press and at every odd position a release; the samples
`[0,0,0]` give exactly `[press]`. -/
theorem key_events_alternate_from_press (fk : Int) (samples : List Nat) :
    keyEvents (pollLoop fk false samples).2
        = (List.range (keyEvents (pollLoop fk false samples).2).length).map
            (fun i => if i % 2 = 0 then pressEvent else releaseEvent)
    ∧ keyEvents (pollLoop fk false [0, 0, 0]).2 = [pressEvent] := by
  refine ⟨?_, rfl⟩
  obtain ⟨n, hn⟩ := keyEvents_alternating fk false samples
  rw [hn, alternating_length, alternating_eq_map]
  apply List.map_congr_left
  intro i _
  by_cases hi : i % 2 = 0 <;> simp [hi]

/-- C3: for every press state and every sample, once one iteration has
processed the sample, any number of further iterations on the same sample
perform no action at all (no key record, no synchronization record) and leave
the press state as it is; the samples `[1,1,1,1]` from the initial state write
nothing. -/
theorem repeated_sample_is_silent (fk : Int) (held : Bool) (sample : Nat) (n : Nat) :
    pollLoop fk (loopBody fk held sample).1 (List.replicate n sample)
        = ((loopBody fk held sample).1, [])
    ∧ (pollLoop fk false [1, 1, 1, 1]).2 = [] := by
  refine ⟨?_, rfl⟩
  rw [loopBody_state]
  exact pollLoop_replicate_same fk sample n

/-- C4, as claimed, fails: for the register word 64 (bit 6 set, bit 5 clear)
bit 5 is 0, yet the loop does not take the sample as pressed. -/
theorem bit5_clear_not_pressed :
    ¬ ((loopBody 4 false (sampleOf 64)).1 = true ↔ Nat.testBit 64 5 = false) := by
  decide

/-- C4, amended: the loop takes a register word as pressed exactly when every
bit of the word at index 5 or above is 0, whatever bits 0 to 4 are; for a word
whose bits above index 5 are all 0 (a word below 64) that is exactly when bit 5
is 0. -/
theorem pressed_iff_no_bit_from_5 (fk : Int) (held : Bool) (word : Nat) :
    ((loopBody fk held (sampleOf word)).1 = true
        ↔ ∀ i, 5 ≤ i → word.testBit i = false)
    ∧ (word < 64 →
        ((loopBody fk held (sampleOf word)).1 = true ↔ word.testBit 5 = false)) := by
  have key : (loopBody fk held (sampleOf word)).1 = true
      ↔ ∀ i, 5 ≤ i → word.testBit i = false := by
    rw [loopBody_state, ← sampleOf_eq_zero_iff]
    simp [isPressed]
  refine ⟨key, fun hlt => ?_⟩
  rw [key]
  constructor
  · intro h
    exact h 5 (Nat.le_refl 5)
  · intro h5 i hi
    rcases Nat.eq_or_lt_of_le hi with h | h
    · rw [← h]; exact h5
    · apply Nat.testBit_lt_two_pow
      calc word < 2 ^ 6 := hlt
        _ ≤ 2 ^ i := Nat.pow_le_pow_right (by decide) h

/-- C4, amended, at the word 35 (bits 5, 1 and 0 set): not pressed, bit 5 is 1. -/
theorem pressed_iff_no_bit_from_5_witness :
    (35 < 64) ∧ ((loopBody 4 false (sampleOf 35)).1 = true ↔ Nat.testBit 35 5 = false) :=
  ⟨by decide, (pressed_iff_no_bit_from_5 4 false 35).2 (by decide)⟩

/-- C5: when `open("/dev/mem", ...)` returns a negative descriptor, the run
consists of that call, the usage message on the error stream and `exit(1)`,
and nothing else: `/dev/uinput` is not opened, no `ioctl` is issued, nothing
is mapped, no register is stored to and no record is written. -/
theorem open_failure_exits_immediately (hw : Gpionano) (env : Env) (h : env.fd < 0) :
    main hw env =
      { trace :=
          [ Action.sysOpen "/dev/mem" [Flag.O_RDWR, Flag.O_SYNC],
            Action.fprintfStderr
              ("usage : $ sudo " ++ env.argv0 ++ " (with root privilege)\n"),
            Action.sysExit 1 ],
        exitCode := some 1 } := by
  simp [main, h]

/-- C5 at a run whose `open` returns `-1`. -/
theorem open_failure_exits_immediately_witness :
    envOpenFails.fd < 0 ∧
    main exampleHeader envOpenFails =
      { trace :=
          [ Action.sysOpen "/dev/mem" [Flag.O_RDWR, Flag.O_SYNC],
            Action.fprintfStderr
              ("usage : $ sudo " ++ envOpenFails.argv0 ++ " (with root privilege)\n"),
            Action.sysExit 1 ],
        exitCode := some 1 } :=
  ⟨by decide, open_failure_exits_immediately exampleHeader envOpenFails (by decide)⟩

/-- C6 is not met by the code: when `mmap` returns `MAP_FAILED` the test
`base == NULL` does not fire, so the run calls neither `perror` nor `exit`, goes
on to the seven register stores through the pointer `MAP_FAILED + offset`, and
enters the loop, where a pressed sample makes it write a press record. -/
theorem map_failed_goes_undetected (hw : Gpionano) :
    (main hw envMapFails).exitCode = none
    ∧ (main hw envMapFails).trace.any isPerror = false
    ∧ ((main hw envMapFails).trace.filter isStore).length = 7
    ∧ Action.store (MAP_FAILED + inPageOffset hw.GPIO_77 4096) Reg.CNF 0x00FF
        ∈ (main hw envMapFails).trace
    ∧ records (main hw envMapFails).trace = [pressEvent, synEvent] := by
  refine ⟨rfl, rfl, rfl, ?_, rfl⟩
  simp [main, envMapFails, exampleEnv, MAP_FAILED, NULL, configure]

/-- C7, as claimed, fails: the key codes declared during setup do not form a
set of one element. -/
theorem declared_keys_not_single :
    ¬ ((declaredKeys (main exampleHeader exampleEnv).trace).toFinset.card = 1) := by
  decide

/-- C7, amended: when `/dev/mem` has been opened, the `UI_SET_KEYBIT` requests
issued before the device is created declare exactly three key codes:
`KEY_SPACE` (57), `KEY_A` (30) and 48 (`KEY_B`). -/
theorem declared_keys_are_three (hw : Gpionano) (env : Env) (h : ¬ env.fd < 0) :
    declaredKeys (main hw env).trace = [KEY_SPACE, KEY_A, 48]
    ∧ (declaredKeys (main hw env).trace).toFinset = {57, 30, 48}
    ∧ (declaredKeys (main hw env).trace).toFinset.card = 3 := by
  have hk : declaredKeys (main hw env).trace = [KEY_SPACE, KEY_A, 48] := by
    unfold main
    by_cases h2 : env.base = NULL
    · simp [h, h2, declaredKeys, declareKeys]
    · simp [h, h2, declaredKeys, declareKeys, configure, declaredKeys_append,
        declaredKeys_pollLoop]
  rw [hk]
  exact ⟨rfl, by decide, by decide⟩

/-- C7, amended, at a run in which `/dev/mem` is opened as descriptor 3. -/
theorem declared_keys_are_three_witness :
    (¬ exampleEnv.fd < 0)
    ∧ declaredKeys (main exampleHeader exampleEnv).trace = [KEY_SPACE, KEY_A, 48]
    ∧ (declaredKeys (main exampleHeader exampleEnv).trace).toFinset = {57, 30, 48}
    ∧ (declaredKeys (main exampleHeader exampleEnv).trace).toFinset.card = 3 :=
  ⟨by decide, declared_keys_are_three exampleHeader exampleEnv (by decide)⟩

/-- C8: for every page size `2 ^ k` and every non-negative physical address
`A`, with `pagemask = pagesize - 1`: the mapping offset `A & ~pagemask` is a
multiple of the page size, the in-page offset `A & pagemask` is at least 0 and
less than the page size, the two add up to `A`, and the pointer `base` plus
in-page offset lies in the one mapped page and stands for physical address `A`. -/
theorem page_split_addresses_register (A k : Nat) (base : Int) :
    mapOffset (A : Int) ((2 : Int) ^ k) % (2 : Int) ^ k = 0
    ∧ 0 ≤ inPageOffset (A : Int) ((2 : Int) ^ k)
    ∧ inPageOffset (A : Int) ((2 : Int) ^ k) < (2 : Int) ^ k
    ∧ mapOffset (A : Int) ((2 : Int) ^ k) + inPageOffset (A : Int) ((2 : Int) ^ k) = (A : Int)
    ∧ physicalOf base ((2 : Int) ^ k) (mapOffset (A : Int) ((2 : Int) ^ k))
        (base + inPageOffset (A : Int) ((2 : Int) ^ k)) = some (A : Int) := by
  have hpos : 0 < 2 ^ k := Nat.two_pow_pos k
  have hlt : A % 2 ^ k < 2 ^ k := Nat.mod_lt A hpos
  have hle : A % 2 ^ k ≤ A := Nat.mod_le A (2 ^ k)
  have hdvd : 2 ^ k ∣ A - A % 2 ^ k := Nat.dvd_sub_mod A
  have hlow0 : (0 : Int) ≤ ((A % 2 ^ k : Nat) : Int) := Int.ofNat_nonneg _
  have hlow1 : ((A % 2 ^ k : Nat) : Int) < (2 : Int) ^ k := by exact_mod_cast hlt
  have hsum : ((A - A % 2 ^ k : Nat) : Int) + ((A % 2 ^ k : Nat) : Int) = (A : Int) := by
    have : A - A % 2 ^ k + A % 2 ^ k = A := Nat.sub_add_cancel hle
    exact_mod_cast this
  rw [mapOffset_cast, inPageOffset_cast]
  refine ⟨?_, hlow0, hlow1, hsum, ?_⟩
  · have h2 : ((2 : Int) ^ k) ∣ ((A - A % 2 ^ k : Nat) : Int) := by exact_mod_cast hdvd
    exact Int.emod_eq_zero_of_dvd h2
  · unfold physicalOf
    have hin : base ≤ base + ((A % 2 ^ k : Nat) : Int)
        ∧ base + ((A % 2 ^ k : Nat) : Int) < base + (2 : Int) ^ k := by
      constructor <;> omega
    rw [if_pos hin]
    congr 1
    omega

/-- C9: for every finite sequence of samples processed by the poll loop, from
either press state, the actions of the loop are `write` calls on the keyboard
descriptor `fk` alone, in pairs: for each state change of the samples one key
record (`EV_KEY`, `KEY_A`, value 1 or 0) written to `fk`, directly followed by
one synchronization record (`EV_SYN`, `SYN_REPORT`, 0) written to the same `fk`,
and nothing else; every record has a zero timestamp.  The writes of a whole run
of `main` are the same pairs on the descriptor of `/dev/uinput`.  One pressed
sample from the released state writes the press record and then the
synchronization record to `fk`, and the run `exampleEnv` writes press,
synchronization, release, synchronization to descriptor 4. -/
theorem writes_are_key_syn_pairs_on_fk (fk : Int) (held : Bool) (samples : List Nat)
    (hw : Gpionano) (env : Env) :
    (pollLoop fk held samples).2 = pairedWrites fk (changes held samples)
    ∧ (records (pollLoop fk held samples).2).all
        (fun ie => ie.tv_sec == 0 && ie.tv_usec == 0) = true
    ∧ writes (main hw env).trace
        = (if env.fd < 0 ∨ env.base = NULL then []
           else pairedWrites env.fk (changes false (env.reads.map sampleOf)))
    ∧ (records (main hw env).trace).all
        (fun ie => ie.tv_sec == 0 && ie.tv_usec == 0) = true
    ∧ (pollLoop fk false [0]).2
        = [ Action.write fk
              { type := EV_KEY, code := KEY_A, value := 1, tv_sec := 0, tv_usec := 0 },
            Action.write fk
              { type := EV_SYN, code := SYN_REPORT, value := 0, tv_sec := 0, tv_usec := 0 } ]
    ∧ writes (main exampleHeader exampleEnv).trace
        = [ Action.write 4 pressEvent, Action.write 4 synEvent,
            Action.write 4 releaseEvent, Action.write 4 synEvent ] := by
  refine ⟨pollLoop_actions fk held samples, ?_, writes_main hw env, ?_, rfl, ?_⟩
  · rw [pollLoop_actions, records_pairedWrites]
    exact pairedStream_timestamps _
  · rw [records_main]
    by_cases h : env.fd < 0 ∨ env.base = NULL
    · rw [if_pos h]; rfl
    · rw [if_neg h, pollLoop_actions, records_pairedWrites]
      exact pairedStream_timestamps _
  · rw [writes_main]
    rfl

/-- C10: after a non-empty sequence of samples, processed from either press
state, `switchPressed` is true exactly when the last sample was pressed; an
iteration that leaves the flag as it was performs no action, and one that
changes it writes the key record of the new state and the synchronization
record; a run of `main` that reaches the loop starts it with the flag false. -/
theorem press_flag_tracks_last_sample (fk : Int) (held : Bool) (front : List Nat)
    (last sample : Nat) (hw : Gpionano) (env : Env)
    (hfd : ¬ env.fd < 0) (hbase : env.base ≠ NULL) :
    ((pollLoop fk held (front ++ [last])).1 = true ↔ last = 0)
    ∧ ((loopBody fk held sample).1 = held ↔ (loopBody fk held sample).2 = [])
    ∧ records (loopBody fk held sample).2
        = (if (loopBody fk held sample).1 = held then []
           else [if (loopBody fk held sample).1 then pressEvent else releaseEvent, synEvent])
    ∧ records (main hw env).trace
        = records (pollLoop env.fk false (env.reads.map sampleOf)).2 := by
  refine ⟨?_, ?_, ?_, ?_⟩
  · rw [pollLoop_append, pollLoop_cons]
    simp [pollLoop, loopBody_state, isPressed]
  · cases held <;> by_cases h : sample = 0 <;> simp [loopBody, h, emit]
  · rw [loopBody_records, loopBody_state]
  · rw [records_main, if_neg (by simp [hfd, hbase])]

/-- C10 at a run in which every call succeeds, with samples `[1, 0]` from the
released state. -/
theorem press_flag_tracks_last_sample_witness :
    (¬ exampleEnv.fd < 0) ∧ exampleEnv.base ≠ NULL
    ∧ ((pollLoop 4 false ([1] ++ [0])).1 = true ↔ (0 : Nat) = 0)
    ∧ ((loopBody 4 false 0).1 = false ↔ (loopBody 4 false 0).2 = [])
    ∧ records (loopBody 4 false 0).2
        = (if (loopBody 4 false 0).1 = false then []
           else [if (loopBody 4 false 0).1 then pressEvent else releaseEvent, synEvent])
    ∧ records (main exampleHeader exampleEnv).trace
        = records (pollLoop exampleEnv.fk false (exampleEnv.reads.map sampleOf)).2 :=
  ⟨by decide, by decide,
    press_flag_tracks_last_sample 4 false [1] 0 0 exampleHeader exampleEnv
      (by decide) (by decide)⟩

end KeyboardEmu
